import Mathlib

/-!
# Batch submission client of the catalog package (`main.go`)

A shallow embedding of `NewClient`, `SetContext`, `SetHttpClient`, `Send`,
`SendUpsert`, `send`, `newBatchRequest`, `Error.Error` and of the JSON encoding
and decoding that `encoding/json` performs for the package's struct types.

Modelling conventions.

* A JSON text is represented by the document it spells (`Json`); a byte
  sequence that is not a JSON text is `Payload.invalid`.
* `encoding/json`, `net/http`, `io` and `fmt` are library code. Their
  behaviour on the package's types is written out below: struct fields are
  encoded in declaration order, `omitempty` drops zero values, decoding walks
  the members of an object in order, matches keys to fields up to case
  folding, skips unknown keys, leaves a field untouched on `null` and decodes
  a key that occurs again over the value the earlier occurrence left.
* The HTTP executor and URL parsing are the environment (`World`).
* `send` also reports which external calls it performed (`Outcome.steps`) and
  the request it handed to the executor (`Outcome.sent`).
-/

set_option linter.dupNamespace false

namespace Catalog

/-! ## JSON documents -/

/-- A JSON document. `num` is a number literal written as an integer, `frac` a
number literal with a fraction or an exponent (kept as its text). -/
inductive Json where
  | null
  | bool (b : Bool)
  | num (n : Int)
  | frac (text : String)
  | str (s : String)
  | arr (items : List Json)
  | obj (members : List (String × Json))

/-- The name `encoding/json` uses for the kind of a JSON value in its type
errors. -/
def Json.kind : Json → String
  | .null => "null"
  | .bool _ => "bool"
  | .num _ => "number"
  | .frac _ => "number"
  | .str _ => "string"
  | .arr _ => "array"
  | .obj _ => "object"

/-! ## Errors -/

/-- The struct `Error` of `main.go`; the field `Type` is spelled `Type_`. -/
structure Error where
  Message : String
  Type_ : String
  Code : Int
  FbTraceId : String
deriving DecidableEq, Repr

/-- The method `func (e Error) Error() string`:
`fmt.Sprintf("%s %d %s", e.Type, e.Code, e.Message)`. -/
def Error.Error (e : Error) : String :=
  e.Type_ ++ " " ++ toString e.Code ++ " " ++ e.Message

/-- The values of Go's `error` interface that `send` can return (`nil` is
`none` of `Option GoError`).
* `app e`: a value of the package's `Error` type;
* `wrap msg a b`: the value built by `fmt.Errorf("%w, %w", a, b)`, whose text
  is `msg` and which wraps `a` and `b`;
* `decoding msg`: an error returned by `json.Unmarshal`;
* `foreign msg`: an error produced outside the package (`net/http`, `io`). -/
inductive GoError where
  | app (e : Error)
  | wrap (msg : String) (first second : GoError)
  | decoding (msg : String)
  | foreign (msg : String)
deriving DecidableEq, Repr

/-- The text `err.Error()` of an error value. -/
def GoError.Error : GoError → String
  | .app e => e.Error
  | .wrap msg _ _ => msg
  | .decoding msg => msg
  | .foreign msg => msg

/-- The call `fmt.Errorf("%w, %w", a, b)`: both operands are rendered with
their `Error()` text and both are wrapped. -/
def errorfWW (a b : GoError) : GoError :=
  .wrap (a.Error ++ ", " ++ b.Error) a b

/-! ## Request data -/

/-- The struct `Applink`. -/
structure Applink where
  IOSUrl : String
  IOSAppStoreID : String
  IOSAppName : String
  IPhoneUrl : String
  IPhoneAppStoreID : String
  IPhoneAppName : String
  IPadUrl : String
  IPadAppStoreID : String
  IPadName : String
  AndroidUrl : String
  AndroidPackage : String
  AndroidClass : String
  AndroidName : String
  WindowsPhoneUrl : String
  WindowsPhoneAppID : String
  WindowsPhoneAppName : String
deriving DecidableEq, Repr

/-- The struct `Media`. `Tag` has no `omitempty`, so a nil slice (`none`) and an
empty one (`some []`) are encoded differently and are kept apart. -/
structure Media where
  Url : String
  Tag : Option (List String)
deriving DecidableEq, Repr

/-- The struct `Product`, fields in declaration order. Slices tagged
`omitempty` are lists: the encoder only looks at their length, which is 0 for
a nil and for an empty slice alike. An element of
`AdditionalVariantAttribute` is a `map[string]string`: `none` is the nil map,
`some kvs` a map holding the entries `kvs` (keys pairwise distinct). -/
structure Product where
  AdditionalImageLink : List String
  AdditionalVariantAttribute : List (Option (List (String × String)))
  AgeGroup : String
  Applink : Option Applink
  Availability : String
  Brand : String
  Color : String
  Condition : String
  CustomLabel0 : String
  CustomLabel1 : String
  CustomLabel2 : String
  CustomLabel3 : String
  CustomLabel4 : String
  Description : String
  DisabledCapabilities : List String
  Gender : String
  GoogleProductCategory : String
  Gtin : String
  Id : String
  Image : List Media
  ImageLink : String
  Video : List Media
  Inventory : Int
  ItemGroupId : String
  Link : String
  ManufacturerPartNumber : String
  Mpn : String
  Material : String
  Pattern : String
  Price : String
  ProductTags : List String
  SalePrice : String
  SalePriceEffectiveDate : String
  Shipping : String
  Size : String
  Title : String
deriving DecidableEq, Repr

/-- The struct `Request`. -/
structure Request where
  Method : String
  Data : Product
deriving DecidableEq, Repr

/-- The struct `BatchRequest`. `Requests` has no `omitempty`: `none` is the nil
slice, `some rs` a non-nil slice with elements `rs`. -/
structure BatchRequest where
  AccessToken : String
  ItemType : String
  Requests : Option (List Request)
  AllowUpsert : Bool
deriving DecidableEq, Repr

/-- The function `newBatchRequest`; `AllowUpsert` keeps its zero value. -/
def newBatchRequest (requests : Option (List Request)) (token : String) : BatchRequest :=
  { AccessToken := token
    ItemType := "PRODUCT_ITEM"
    Requests := requests
    AllowUpsert := false }

/-! ## Encoding (`json.Marshal`) -/

/-- A string field without `omitempty`. -/
def keepStr (key s : String) : List (String × Json) :=
  [(key, .str s)]

/-- A string field tagged `omitempty`: dropped when empty. -/
def omitStr (key s : String) : List (String × Json) :=
  if s = "" then [] else [(key, .str s)]

/-- An `int` field tagged `omitempty`: dropped when zero. -/
def omitInt (key : String) (n : Int) : List (String × Json) :=
  if n = 0 then [] else [(key, .num n)]

/-- A slice field tagged `omitempty`, elements encoded by `enc`: dropped when
its length is 0. -/
def omitList {α : Type} (key : String) (enc : α → Json) (xs : List α) : List (String × Json) :=
  if xs.length = 0 then [] else [(key, .arr (xs.map enc))]

/-- A pointer field tagged `omitempty`: dropped when nil. -/
def omitPtr {α : Type} (key : String) (enc : α → Json) : Option α → List (String × Json)
  | none => []
  | some x => [(key, enc x)]

/-- A `[]string` without `omitempty`: `null` for the nil slice. -/
def encodeStrings : Option (List String) → Json
  | none => .null
  | some xs => .arr (xs.map .str)

/-- A `map[string]string`: `null` for the nil map, otherwise an object whose
members are sorted by key. -/
def encodeStringMap : Option (List (String × String)) → Json
  | none => .null
  | some kvs =>
    .obj ((kvs.insertionSort (fun a b => ¬ b.1 < a.1)).map (fun kv => (kv.1, .str kv.2)))

/-- Encoding of `Applink`: every field, in declaration order. -/
def encodeApplink (a : Applink) : Json :=
  .obj [("ios_url", .str a.IOSUrl),
        ("ios_app_store_id", .str a.IOSAppStoreID),
        ("ios_app_name", .str a.IOSAppName),
        ("iphone_url", .str a.IPhoneUrl),
        ("iphone_app_store_id", .str a.IPhoneAppStoreID),
        ("iphone_app_name", .str a.IPhoneAppName),
        ("ipad_url", .str a.IPadUrl),
        ("ipad_app_store_id", .str a.IPadAppStoreID),
        ("ipad_app_name", .str a.IPadName),
        ("android_url", .str a.AndroidUrl),
        ("android_package", .str a.AndroidPackage),
        ("android_class", .str a.AndroidClass),
        ("android_app_name", .str a.AndroidName),
        ("windows_phone_url", .str a.WindowsPhoneUrl),
        ("windows_phone_app_id", .str a.WindowsPhoneAppID),
        ("windows_phone_app_name", .str a.WindowsPhoneAppName)]

/-- Encoding of `Media`. -/
def encodeMedia (m : Media) : Json :=
  .obj [("url", .str m.Url), ("tag", encodeStrings m.Tag)]

/-- The members of the object encoded for a `Product`, in declaration order of
the struct fields, following each field's tag. -/
def productMembers (p : Product) : List (String × Json) :=
  omitList "additional_image_link" Json.str p.AdditionalImageLink ++
  omitList "additional_variant_attribute" encodeStringMap p.AdditionalVariantAttribute ++
  omitStr "age_group" p.AgeGroup ++
  omitPtr "applink" encodeApplink p.Applink ++
  keepStr "availability" p.Availability ++
  omitStr "brand" p.Brand ++
  omitStr "color" p.Color ++
  keepStr "condition" p.Condition ++
  omitStr "custom_label_0" p.CustomLabel0 ++
  omitStr "custom_label_1" p.CustomLabel1 ++
  omitStr "custom_label_2" p.CustomLabel2 ++
  omitStr "custom_label_3" p.CustomLabel3 ++
  omitStr "custom_label_4" p.CustomLabel4 ++
  keepStr "description" p.Description ++
  omitList "disabled_capabilities" Json.str p.DisabledCapabilities ++
  omitStr "gender" p.Gender ++
  omitStr "google_product_category" p.GoogleProductCategory ++
  omitStr "gtin" p.Gtin ++
  keepStr "id" p.Id ++
  omitList "image" encodeMedia p.Image ++
  omitStr "image_link" p.ImageLink ++
  omitList "video" encodeMedia p.Video ++
  omitInt "inventory" p.Inventory ++
  omitStr "item_group_id" p.ItemGroupId ++
  keepStr "link" p.Link ++
  omitStr "manufacturer_part_number" p.ManufacturerPartNumber ++
  omitStr "mpn" p.Mpn ++
  omitStr "material" p.Material ++
  omitStr "pattern" p.Pattern ++
  keepStr "price" p.Price ++
  omitList "product_tags" Json.str p.ProductTags ++
  omitStr "sale_price" p.SalePrice ++
  omitStr "sale_price_effective_date" p.SalePriceEffectiveDate ++
  omitStr "shipping" p.Shipping ++
  omitStr "size" p.Size ++
  keepStr "title" p.Title

/-- Encoding of `Product`. -/
def encodeProduct (p : Product) : Json :=
  .obj (productMembers p)

/-- Encoding of `Request`. -/
def encodeRequest (r : Request) : Json :=
  .obj [("method", .str r.Method), ("data", encodeProduct r.Data)]

/-- A `[]Request` without `omitempty`: `null` for the nil slice. -/
def encodeRequests : Option (List Request) → Json
  | none => .null
  | some rs => .arr (rs.map encodeRequest)

/-- Encoding of `BatchRequest`. -/
def encodeBatchRequest (b : BatchRequest) : Json :=
  .obj [("access_token", .str b.AccessToken),
        ("item_type", .str b.ItemType),
        ("requests", encodeRequests b.Requests),
        ("allow_upsert", .bool b.AllowUpsert)]

/-- The call `json.Marshal(batchRequest)`. A `BatchRequest` holds only strings,
integers, booleans, slices, string maps and a struct pointer, so the encoder
has no failing case for it. -/
def jsonMarshal (b : BatchRequest) : Except GoError Json :=
  .ok (encodeBatchRequest b)

/-! ## Decoding (`json.Unmarshal`)

Decoding reports the first type mismatch met in document order. The decoders
below stop at it; `encoding/json` records it and goes on filling the value,
which `send` then discards. The text carried by a decoding error is indicative
only.

Decoding works in place. An object is decoded member by member over the
struct value as it stands, so a key that occurs again decodes over what the
earlier occurrence left. An array is decoded item by item over the elements of
the slice's backing array: item `i` over element `i`, whether that element
lies below the slice's length or in the capacity past it; an empty array and
`null` replace the slice by one without backing array. -/

/-- Case folding of one rune, as far as it matters for the package's field
names (ASCII letters, digits and `_`): lower-case ASCII letters go to upper
case, and the two non-ASCII runes that fold to an ASCII letter, U+017F (long
s) and U+212A (Kelvin sign), go to `S` and `K`. -/
def foldCode (c : Char) : Nat :=
  let n := c.toNat
  if 97 ≤ n ∧ n ≤ 122 then n - 32
  else if n = 0x17F then 83
  else if n = 0x212A then 75
  else n

/-- Whether an object key selects the struct field with JSON name `name`
(an exact match or a match up to case folding). -/
def keyMatches (name key : String) : Bool :=
  key.data.map foldCode == name.data.map foldCode

/-- An `UnmarshalTypeError` for value `j` met at `path` where Go type `ty` is
expected. -/
def typeError (j : Json) (path ty : String) : GoError :=
  .decoding ("json: cannot unmarshal " ++ j.kind ++ " into Go struct field " ++ path ++
    " of type " ++ ty)

/-- Decoding into a `string` that currently holds `cur`. -/
def decodeString (path cur : String) : Json → Except GoError String
  | .str s => .ok s
  | .null => .ok cur
  | j => .error (typeError j path "string")

/-- Decoding into an `int` (64 bits) that currently holds `cur`: only an
integer literal in range is accepted. -/
def decodeInt (path : String) (cur : Int) : Json → Except GoError Int
  | .num n =>
    if -(2 : Int) ^ 63 ≤ n ∧ n < (2 : Int) ^ 63 then .ok n
    else .error (typeError (.num n) path "int")
  | .null => .ok cur
  | j => .error (typeError j path "int")

/-- A Go slice while `json.Unmarshal` fills it: `elems` are the elements below
its length, `spare` the elements of its backing array past the length that an
earlier array wrote and a shorter one cut off (what lies past them is zero). -/
structure Slice (α : Type) where
  elems : List α
  spare : List α
deriving DecidableEq, Repr

/-- The nil slice. -/
def Slice.none {α : Type} : Slice α := ⟨[], []⟩

/-- Decoding the items of an array in order: item `i` is decoded by `elem` over
element `i` of `backing`, or over the zero value past its end. -/
def decodeItems {α : Type} (elem : α → Json → Except GoError α) (zero : α) :
    List α → List Json → Except GoError (List α)
  | _, [] => .ok []
  | backing, item :: items =>
    match elem (backing.headD zero) item with
    | .error err => .error err
    | .ok x =>
      match decodeItems elem zero backing.tail items with
      | .error err => .error err
      | .ok xs => .ok (x :: xs)

/-- Decoding into a slice that currently is `cur`, elements decoded by `elem`.
A non-empty array is decoded over the backing array of `cur` and sets the
length to the number of items, the elements past it staying in the backing
array; the empty array and `null` yield a slice without backing array. -/
def decodeSlice {α : Type} (path ty : String) (elem : α → Json → Except GoError α) (zero : α)
    (cur : Slice α) : Json → Except GoError (Slice α)
  | .arr [] => .ok ⟨[], []⟩
  | .arr (item :: items) =>
    match decodeItems elem zero (cur.elems ++ cur.spare) (item :: items) with
    | .error err => .error err
    | .ok xs => .ok ⟨xs, (cur.elems ++ cur.spare).drop (items.length + 1)⟩
  | .null => .ok ⟨[], []⟩
  | j => .error (typeError j path ty)

/-- Decoding of one object member into an `Error` value. -/
def errorMember (path : String) (cur : Error) (kv : String × Json) : Except GoError Error :=
  if keyMatches "message" kv.1 then
    (decodeString (path ++ "message") cur.Message kv.2).map (fun s => { cur with Message := s })
  else if keyMatches "type" kv.1 then
    (decodeString (path ++ "type") cur.Type_ kv.2).map (fun s => { cur with Type_ := s })
  else if keyMatches "code" kv.1 then
    (decodeInt (path ++ "code") cur.Code kv.2).map (fun n => { cur with Code := n })
  else if keyMatches "fbtrace_id" kv.1 then
    (decodeString (path ++ "fbtrace_id") cur.FbTraceId kv.2).map
      (fun s => { cur with FbTraceId := s })
  else .ok cur

/-- Decoding into an `Error` value that currently holds `cur`. -/
def decodeError (path : String) (cur : Error) : Json → Except GoError Error
  | .obj members => members.foldlM (errorMember path) cur
  | .null => .ok cur
  | j => .error (typeError j path "catalog.Error")

/-- The struct `ValidationStatus`, fields in declaration order, as `send` reads
it: of a slice it takes the elements below the length. -/
structure ValidationStatus where
  Errors : List Error
  RetailerId : String
  Warnings : List Error
deriving DecidableEq, Repr

/-- The struct `Response`, as `send` reads it. -/
structure Response where
  Handles : List String
  ValidationStatus : List ValidationStatus
deriving DecidableEq, Repr

/-- The zero value `Error{}`. -/
def Error.zero : Catalog.Error := ⟨"", "", 0, ""⟩

/-- The zero value `ValidationStatus{}`. -/
def ValidationStatus.zero : ValidationStatus := ⟨[], "", []⟩

/-- The zero value `Response{}`. -/
def Response.zero : Response := ⟨[], []⟩

/-- A `ValidationStatus` value while `json.Unmarshal` fills it: the same
fields, the slices with their backing arrays. -/
structure StoredValidationStatus where
  Errors : Slice Error
  RetailerId : String
  Warnings : Slice Error
deriving DecidableEq, Repr

/-- A `Response` value while `json.Unmarshal` fills it. -/
structure StoredResponse where
  Handles : Slice String
  ValidationStatus : Slice StoredValidationStatus
deriving DecidableEq, Repr

/-- The zero value `ValidationStatus{}`, both slices nil. -/
def StoredValidationStatus.zero : StoredValidationStatus := ⟨Slice.none, "", Slice.none⟩

/-- The zero value `Response{}`, both slices nil. -/
def StoredResponse.zero : StoredResponse := ⟨Slice.none, Slice.none⟩

/-- The `ValidationStatus` value a stored one amounts to. -/
def StoredValidationStatus.value (m : StoredValidationStatus) : ValidationStatus :=
  ⟨m.Errors.elems, m.RetailerId, m.Warnings.elems⟩

/-- The `Response` value a stored one amounts to. -/
def StoredResponse.value (m : StoredResponse) : Response :=
  ⟨m.Handles.elems, m.ValidationStatus.elems.map StoredValidationStatus.value⟩

/-- Decoding of one object member into a `ValidationStatus` value. -/
def validationStatusMember (path : String) (cur : StoredValidationStatus)
    (kv : String × Json) : Except GoError StoredValidationStatus :=
  if keyMatches "errors" kv.1 then
    (decodeSlice (path ++ "errors") "[]catalog.Error" (decodeError (path ++ "errors.")) Error.zero
      cur.Errors kv.2).map (fun es => { cur with Errors := es })
  else if keyMatches "retailer_id" kv.1 then
    (decodeString (path ++ "retailer_id") cur.RetailerId kv.2).map
      (fun s => { cur with RetailerId := s })
  else if keyMatches "warnings" kv.1 then
    (decodeSlice (path ++ "warnings") "[]catalog.Error" (decodeError (path ++ "warnings."))
      Error.zero cur.Warnings kv.2).map (fun es => { cur with Warnings := es })
  else .ok cur

/-- Decoding into a `ValidationStatus` value that currently holds `cur`. -/
def decodeValidationStatus (path : String) (cur : StoredValidationStatus) :
    Json → Except GoError StoredValidationStatus
  | .obj members => members.foldlM (validationStatusMember path) cur
  | .null => .ok cur
  | j => .error (typeError j path "catalog.ValidationStatus")

/-- Decoding of one object member into a `Response` value. -/
def responseMember (cur : StoredResponse) (kv : String × Json) : Except GoError StoredResponse :=
  if keyMatches "handles" kv.1 then
    (decodeSlice "Response.handles" "[]string" (decodeString "Response.handles") ""
      cur.Handles kv.2).map (fun hs => { cur with Handles := hs })
  else if keyMatches "validation_status" kv.1 then
    (decodeSlice "Response.validation_status" "[]catalog.ValidationStatus"
      (decodeValidationStatus "Response.validation_status.") StoredValidationStatus.zero
      cur.ValidationStatus kv.2).map (fun vs => { cur with ValidationStatus := vs })
  else .ok cur

/-- Decoding into a `Response` value that currently holds `cur`. -/
def decodeResponse (cur : StoredResponse) : Json → Except GoError StoredResponse
  | .obj members => members.foldlM responseMember cur
  | .null => .ok cur
  | j => .error (.decoding ("json: cannot unmarshal " ++ j.kind ++
      " into Go value of type catalog.Response"))

/-- The bytes read from a response body: either bytes that the validity scan
of `json.Unmarshal` rejects (with the syntax error it reports for them; this
covers bytes that are no JSON text and texts nested deeper than the scan
allows), or a text that it accepts, given by the document the text spells. -/
inductive Payload where
  | invalid (msg : String)
  | doc (j : Json)

/-- The call `json.Unmarshal(body, &v)` with `v := Response{}`. -/
def unmarshalResponse : Payload → Except GoError Response
  | .invalid msg => .error (.decoding msg)
  | .doc j =>
    match decodeResponse StoredResponse.zero j with
    | .error err => .error err
    | .ok m => .ok m.value

/-- The call `json.Unmarshal(body, &er)` with `er := Error{}`. -/
def unmarshalError : Payload → Except GoError Error
  | .invalid msg => .error (.decoding msg)
  | .doc j => decodeError "Error." Error.zero j

/-! ## The client and its environment -/

/-- A `context.Context` value: the background context or one supplied by the
caller. -/
inductive Context where
  | background
  | supplied (id : Nat)
deriving DecidableEq, Repr

/-- The request handed to the HTTP executor. `Body` is the document spelled by
the marshalled bytes. -/
structure HttpRequest where
  Ctx : Context
  Method : String
  URL : String
  Header : List (String × String)
  Body : Json

/-- The response returned by the HTTP executor. `Body` is what `io.ReadAll`
yields on the body stream: a read failure or the bytes. -/
structure HttpResponse where
  StatusCode : Int
  Body : Except GoError Payload

/-- An `*http.Client`, reduced to its method `Do`. -/
structure HttpClient where
  Do : HttpRequest → Except GoError HttpResponse

/-- The struct `client`; a nil `ctx` or `httpClient` is `none`. -/
structure client where
  ctx : Option Context
  url : String
  httpClient : Option HttpClient

/-- What `send` takes from outside the package: `http.DefaultClient`, and the
error, if any, with which `http.NewRequestWithContext` rejects a URL. -/
structure World where
  defaultClient : HttpClient
  rejectURL : String → Option GoError

/-- The function `NewClient`:
`fmt.Sprintf("https://graph.facebook.com/%s/%d/items_batch", apiVersion, catalogID)`
with `catalogID` a `uint64`. -/
def NewClient (apiVersion : String) (catalogID : Nat) : client :=
  { ctx := none
    url := "https://graph.facebook.com/" ++ apiVersion ++ "/" ++ toString (catalogID % 2 ^ 64) ++
      "/items_batch"
    httpClient := none }

/-- The method `SetContext`. -/
def client.SetContext (c : client) (ctx : Context) : client :=
  { c with ctx := some ctx }

/-- The method `SetHttpClient`. -/
def client.SetHttpClient (c : client) (cli : HttpClient) : client :=
  { c with httpClient := some cli }

/-- The call `http.NewRequestWithContext(ctx, "POST", url, body)`: the method
is valid and the context is not nil, so it fails only when the URL is
rejected. The new request has no header. -/
def newRequestWithContext (w : World) (ctx : Context) (method url : String) (body : Json) :
    Except GoError HttpRequest :=
  match w.rejectURL url with
  | some err => .error err
  | none => .ok { Ctx := ctx, Method := method, URL := url, Header := [], Body := body }

/-- The call `req.Header.Set(key, value)`. -/
def HttpRequest.setHeader (req : HttpRequest) (key value : String) : HttpRequest :=
  { req with Header := (key, value) :: req.Header.filter (fun kv => kv.1 != key) }

/-- The external calls `send` performs. -/
inductive Step where
  | marshal
  | newRequest
  | roundTrip
  | readBody
  | unmarshalResponse
  | unmarshalError
  | closeBody
deriving DecidableEq, Repr

/-- What a call of `send` amounts to: the returned error (`none` for `nil`),
the external calls performed, in order, and the request handed to the
executor, if any. -/
structure Outcome where
  err : Option GoError
  steps : List Step
  sent : Option HttpRequest

/-- The loop at the end of `send`: every `e` of every entry's `Errors`, in
order, is chained onto `err` with `fmt.Errorf("%w, %w", err, e)`, or becomes
`err` when `err` is nil. -/
def chainErrors (err : Option GoError) (status : List ValidationStatus) : Option GoError :=
  status.foldl
    (fun err vv =>
      vv.Errors.foldl
        (fun err e =>
          match err with
          | some prev => some (errorfWW prev (.app e))
          | none => some (.app e))
        err)
    err

/-- The method `send`. The deferred `resp.Body.Close()` runs last on every
path that obtained a response. -/
def client.send (c : client) (w : World) (batchRequest : BatchRequest) : Outcome :=
  let ctx := c.ctx.getD Context.background
  let httpClient := c.httpClient.getD w.defaultClient
  match jsonMarshal batchRequest with
  | .error err => ⟨some err, [.marshal], none⟩
  | .ok requestBody =>
    match newRequestWithContext w ctx "POST" c.url requestBody with
    | .error err => ⟨some err, [.marshal, .newRequest], none⟩
    | .ok req0 =>
      let req := req0.setHeader "Content-Type" "application/json"
      match httpClient.Do req with
      | .error err => ⟨some err, [.marshal, .newRequest, .roundTrip], some req⟩
      | .ok resp =>
        if resp.StatusCode = 204 then
          ⟨none, [.marshal, .newRequest, .roundTrip, .closeBody], some req⟩
        else
          match resp.Body with
          | .error err =>
            ⟨some err, [.marshal, .newRequest, .roundTrip, .readBody, .closeBody], some req⟩
          | .ok body =>
            match unmarshalResponse body with
            | .error err =>
              ⟨some err, [.marshal, .newRequest, .roundTrip, .readBody, .unmarshalResponse,
                .closeBody], some req⟩
            | .ok v =>
              if v.Handles.length = 0 then
                match unmarshalError body with
                | .error err =>
                  ⟨some err, [.marshal, .newRequest, .roundTrip, .readBody, .unmarshalResponse,
                    .unmarshalError, .closeBody], some req⟩
                | .ok er =>
                  ⟨some (.app er), [.marshal, .newRequest, .roundTrip, .readBody,
                    .unmarshalResponse, .unmarshalError, .closeBody], some req⟩
              else
                ⟨chainErrors none v.ValidationStatus, [.marshal, .newRequest, .roundTrip,
                  .readBody, .unmarshalResponse, .closeBody], some req⟩

/-- The method `SendUpsert`. -/
def client.SendUpsert (c : client) (w : World) (requests : Option (List Request))
    (token : String) : Outcome :=
  let req := newBatchRequest requests token
  let req := { req with AllowUpsert := true }
  c.send w req

/-- The method `Send`. -/
def client.Send (c : client) (w : World) (requests : Option (List Request))
    (token : String) : Outcome :=
  let req := newBatchRequest requests token
  c.send w req

/-- The executor `send` uses: the client's own, or `http.DefaultClient`. -/
def client.executor (c : client) (w : World) : HttpClient :=
  c.httpClient.getD w.defaultClient

/-- The request `send` builds for an envelope: a POST of the encoded envelope
to the client's URL with header `Content-Type: application/json`, under the
client's context or the background context. -/
def client.request (c : client) (batchRequest : BatchRequest) : HttpRequest :=
  { Ctx := c.ctx.getD Context.background
    Method := "POST"
    URL := c.url
    Header := [("Content-Type", "application/json")]
    Body := encodeBatchRequest batchRequest }

/-- Every embedded validation error of a decoded response: entry by entry in
`validation_status` order, in `errors` order within an entry. -/
def embeddedErrors (v : Response) : List Error :=
  v.ValidationStatus.flatMap (fun vv => vv.Errors)

/-- The members of a JSON object (none for any other value). -/
def Json.members : Json → List (String × Json)
  | .obj members => members
  | _ => []

/-- The keys of a JSON object, in order. -/
def Json.keys (j : Json) : List String :=
  j.members.map Prod.fst

/-- The JSON names of the `Product` fields tagged `omitempty`. -/
def optionalProductKeys : List String :=
  ["additional_image_link", "additional_variant_attribute", "age_group", "applink", "brand",
   "color", "custom_label_0", "custom_label_1", "custom_label_2", "custom_label_3",
   "custom_label_4", "disabled_capabilities", "gender", "google_product_category", "gtin",
   "image", "image_link", "video", "inventory", "item_group_id", "manufacturer_part_number",
   "mpn", "material", "pattern", "product_tags", "sale_price", "sale_price_effective_date",
   "shipping", "size"]

/-- A product with every field at its zero value except the seven untagged
ones, `brand` and `inventory`. -/
def sampleProduct : Product :=
  { AdditionalImageLink := [], AdditionalVariantAttribute := [], AgeGroup := "", Applink := none,
    Availability := "in stock", Brand := "acme", Color := "", Condition := "new",
    CustomLabel0 := "", CustomLabel1 := "", CustomLabel2 := "", CustomLabel3 := "",
    CustomLabel4 := "", Description := "a kettle", DisabledCapabilities := [], Gender := "",
    GoogleProductCategory := "", Gtin := "", Id := "sku-1", Image := [], ImageLink := "",
    Video := [], Inventory := 3, ItemGroupId := "", Link := "https://example.com/sku-1",
    ManufacturerPartNumber := "", Mpn := "", Material := "", Pattern := "", Price := "10 USD",
    ProductTags := [], SalePrice := "", SalePriceEffectiveDate := "", Shipping := "", Size := "",
    Title := "Kettle" }

/-- Whether an object key selects a field of `Response`. -/
def selectsResponseField (key : String) : Bool :=
  keyMatches "handles" key || keyMatches "validation_status" key

/-- Whether an object key selects a field of `Error`. -/
def selectsErrorField (key : String) : Bool :=
  keyMatches "message" key || keyMatches "type" key || keyMatches "code" key ||
    keyMatches "fbtrace_id" key

/-- The members of an error-shaped object, in the order of the wire format. -/
def errorMembers (m t : String) (code : Int) (f : String) : List (String × Json) :=
  [("message", .str m), ("type", .str t), ("code", .num code), ("fbtrace_id", .str f)]

/-! ## Sample data -/

/-- A world whose default executor answers every request with status `status`
and the body stream `body`, and which accepts every URL. -/
def answeringWith (status : Int) (body : Except GoError Payload) : World :=
  { defaultClient := ⟨fun _ => .ok ⟨status, body⟩⟩
    rejectURL := fun _ => none }

/-- A world whose default executor answers every request with status `status`
and a body holding the text of `j`, and which accepts every URL. -/
def answering (status : Int) (j : Json) : World :=
  answeringWith status (.ok (.doc j))

/-- A world whose default executor fails every exchange with `e`. -/
def failing (e : GoError) : World :=
  { defaultClient := ⟨fun _ => .error e⟩
    rejectURL := fun _ => none }

/-- The client for API version `v19.0` and catalog 123456. -/
def sampleClient : client := NewClient "v19.0" 123456

/-- An envelope without operations. -/
def sampleEnvelope : BatchRequest := newBatchRequest (some []) "token"

/-- The error object with the given fields. -/
def errorObject (m t : String) (code : Int) (f : String) : Json :=
  .obj (errorMembers m t code f)

/-- The body `{"handles":["h1"],"validation_status":[]}`. -/
def bodyClean : Json :=
  .obj [("handles", .arr [.str "h1"]), ("validation_status", .arr [])]

/-- The body with handle `h1` and one entry for `r1` holding the error
`bad price` and no warning. -/
def bodyBadPrice : Json :=
  .obj [("handles", .arr [.str "h1"]),
        ("validation_status", .arr [.obj [("retailer_id", .str "r1"),
          ("errors", .arr [errorObject "bad price" "param" 100 "t1"]),
          ("warnings", .arr [])]])]

/-- A body with handle `h1` and two entries, for `r1` and `r2`, holding one
error each (`bad price`, `bad title`); the first also holds a warning. -/
def bodyTwoErrors : Json :=
  .obj [("handles", .arr [.str "h1"]),
        ("validation_status", .arr [
          .obj [("retailer_id", .str "r1"),
            ("errors", .arr [errorObject "bad price" "param" 100 "t1"]),
            ("warnings", .arr [errorObject "odd size" "hint" 7 "t3"])],
          .obj [("retailer_id", .str "r2"),
            ("errors", .arr [errorObject "bad title" "param" 101 "t4"]),
            ("warnings", .arr [])]])]

/-- A body with handle `h1` whose only entry holds warnings and no error. -/
def bodyWarningsOnly : Json :=
  .obj [("handles", .arr [.str "h1"]),
        ("validation_status", .arr [
          .obj [("retailer_id", .str "r1"),
            ("errors", .arr []),
            ("warnings", .arr [errorObject "odd size" "hint" 7 "t3",
              errorObject "long title" "hint" 8 "t5"])]])]

/-- The body `{"message":"Invalid token","type":"OAuthException","code":190,"fbtrace_id":"t2"}`. -/
def bodyInvalidToken : Json :=
  errorObject "Invalid token" "OAuthException" 190 "t2"

/-- The `Invalid token` body followed by the member `"error_subcode":463`. -/
def bodyInvalidTokenSubcode : Json :=
  .obj (errorMembers "Invalid token" "OAuthException" 190 "t2" ++ [("error_subcode", .num 463)])

/-- A body with handle `h1` whose only entry has the key `errors` twice: first
with an error holding message `x` and code 1, then with an error holding type
`y`. -/
def bodyRepeatedErrorsKey : Json :=
  .obj [("handles", .arr [.str "h1"]),
        ("validation_status", .arr [
          .obj [("errors", .arr [.obj [("message", .str "x"), ("code", .num 1)]]),
                ("errors", .arr [.obj [("type", .str "y")]])]])]

/-- A body with handle `h1` and the key `validation_status` twice: first with
an entry holding an error with message `x` and code 1, then with the entry
`{}`. -/
def bodyRepeatedStatusKey : Json :=
  .obj [("handles", .arr [.str "h1"]),
        ("validation_status", .arr [
          .obj [("errors", .arr [.obj [("message", .str "x"), ("code", .num 1)]])]]),
        ("validation_status", .arr [.obj []])]

/-- The body `{}`. -/
def bodyEmptyObject : Json := .obj []

/-- The body `{"handles":[]}`. -/
def bodyEmptyHandles : Json := .obj [("handles", .arr [])]

/-- The body `{"handles":["h1"],"message":"Invalid token","type":"OAuthException","code":190}`. -/
def bodyBothShapes : Json :=
  .obj [("handles", .arr [.str "h1"]), ("message", .str "Invalid token"),
        ("type", .str "OAuthException"), ("code", .num 190)]

/-! ## Lemmas on the error loop -/

/-- One step of the loop of `send`. -/
def chainStep (err : Option GoError) (e : Error) : Option GoError :=
  match err with
  | some prev => some (errorfWW prev (.app e))
  | none => some (.app e)

theorem chainErrors_eq_foldl (err : Option GoError) (status : List ValidationStatus) :
    chainErrors err status = (status.flatMap (fun vv => vv.Errors)).foldl chainStep err := by
  induction status generalizing err with
  | nil => rfl
  | cons vv rest ih =>
    have h : chainErrors err (vv :: rest) = chainErrors (vv.Errors.foldl chainStep err) rest := rfl
    rw [h, ih, List.flatMap_cons, List.foldl_append]

theorem foldl_chainStep_some (es : List Error) (g : GoError) :
    ∃ g', es.foldl chainStep (some g) = some g' ∧
      g'.Error = String.intercalate.go g.Error ", " (es.map Error.Error) ∧
      g.Error.data <+: g'.Error.data ∧
      (es = [] → g' = g) ∧
      ∀ e ∈ es, e.Message.data <:+: g'.Error.data := by
  induction es generalizing g with
  | nil => exact ⟨g, rfl, rfl, List.prefix_refl _, fun _ => rfl, by simp⟩
  | cons e rest ih =>
    obtain ⟨g', h1, h2, h3, -, h5⟩ := ih (errorfWW g (.app e))
    have htext : (errorfWW g (.app e)).Error = g.Error ++ ", " ++ e.Error := rfl
    refine ⟨g', h1, ?_, ?_, by simp, ?_⟩
    · rw [h2, htext]; rfl
    · refine List.IsPrefix.trans ?_ h3
      rw [htext, String.data_append, String.data_append, List.append_assoc]
      exact List.prefix_append _ _
    · intro e' he'
      rcases List.mem_cons.mp he' with rfl | hmem
      · refine List.IsInfix.trans ?_ h3.isInfix
        rw [htext]
        have : (e'.Error).data = (e'.Type_ ++ " " ++ toString e'.Code ++ " ").data ++ e'.Message.data := by
          simp [Error.Error, String.data_append]
        rw [String.data_append, this]
        exact (List.suffix_append _ _).isInfix.trans (List.suffix_append _ _).isInfix
      · exact h5 e' hmem

theorem foldl_chainStep_none (es : List Error) :
    (es = [] → es.foldl chainStep none = none) ∧
    (es ≠ [] → ∃ g, es.foldl chainStep none = some g ∧
      g.Error = String.intercalate ", " (es.map Error.Error) ∧
      (∀ e, es = [e] → g = .app e) ∧
      ∀ e ∈ es, e.Message.data <:+: g.Error.data) := by
  cases es with
  | nil => exact ⟨fun _ => rfl, fun h => absurd rfl h⟩
  | cons e rest =>
    refine ⟨fun h => by simp at h, fun _ => ?_⟩
    obtain ⟨g', h1, h2, h3, h4, h5⟩ := foldl_chainStep_some rest (.app e)
    refine ⟨g', h1, ?_, ?_, ?_⟩
    · rw [h2]; rfl
    · intro e' he'
      simp only [List.cons.injEq] at he'
      rw [h4 he'.2, he'.1]
    · intro e' he'
      rcases List.mem_cons.mp he' with rfl | hmem
      · refine List.IsInfix.trans ?_ h3.isInfix
        have : (GoError.app e').Error.data =
            (e'.Type_ ++ " " ++ toString e'.Code ++ " ").data ++ e'.Message.data := by
          simp [GoError.Error, Error.Error, String.data_append]
        rw [this]
        exact (List.suffix_append _ _).isInfix
      · exact h5 e' hmem

theorem chainErrors_none_iff (status : List ValidationStatus) :
    chainErrors none status = none ↔ ∀ vv ∈ status, vv.Errors = [] := by
  rw [chainErrors_eq_foldl, ← List.flatMap_eq_nil_iff]
  constructor
  · intro h
    by_contra hne
    obtain ⟨g, hg, -⟩ := (foldl_chainStep_none _).2 hne
    rw [hg] at h
    exact absurd h (by simp)
  · intro h
    exact (foldl_chainStep_none _).1 h

theorem chainErrors_erase_warnings (status : List ValidationStatus) (ws : ValidationStatus → List Error) :
    chainErrors none (status.map (fun vv => { vv with Warnings := ws vv })) =
      chainErrors none status := by
  rw [chainErrors_eq_foldl, chainErrors_eq_foldl]
  congr 1
  induction status with
  | nil => rfl
  | cons vv rest ih => simp [List.flatMap_cons, ih]

/-! ## Lemmas on `send` -/

theorem send_of_response (c : client) (w : World) (b : BatchRequest) (resp : HttpResponse)
    (hurl : w.rejectURL c.url = none)
    (hdo : (c.executor w).Do (c.request b) = .ok resp) :
    c.send w b =
      if resp.StatusCode = 204 then
        ⟨none, [.marshal, .newRequest, .roundTrip, .closeBody], some (c.request b)⟩
      else
        match resp.Body with
        | .error err =>
          ⟨some err, [.marshal, .newRequest, .roundTrip, .readBody, .closeBody],
            some (c.request b)⟩
        | .ok body =>
          match unmarshalResponse body with
          | .error err =>
            ⟨some err, [.marshal, .newRequest, .roundTrip, .readBody, .unmarshalResponse,
              .closeBody], some (c.request b)⟩
          | .ok v =>
            if v.Handles.length = 0 then
              match unmarshalError body with
              | .error err =>
                ⟨some err, [.marshal, .newRequest, .roundTrip, .readBody, .unmarshalResponse,
                  .unmarshalError, .closeBody], some (c.request b)⟩
              | .ok er =>
                ⟨some (.app er), [.marshal, .newRequest, .roundTrip, .readBody,
                  .unmarshalResponse, .unmarshalError, .closeBody], some (c.request b)⟩
            else
              ⟨chainErrors none v.ValidationStatus, [.marshal, .newRequest, .roundTrip,
                .readBody, .unmarshalResponse, .closeBody], some (c.request b)⟩ := by
  have hreq : newRequestWithContext w (c.ctx.getD Context.background) "POST" c.url
      (encodeBatchRequest b) =
      .ok ⟨c.ctx.getD Context.background, "POST", c.url, [], encodeBatchRequest b⟩ := by
    simp [newRequestWithContext, hurl]
  have hset : HttpRequest.setHeader
      ⟨c.ctx.getD Context.background, "POST", c.url, [], encodeBatchRequest b⟩ "Content-Type"
      "application/json" = c.request b := rfl
  have hdo' : (c.httpClient.getD w.defaultClient).Do (c.request b) = .ok resp := hdo
  simp only [client.send, jsonMarshal, hreq, hset, hdo']

theorem send_err_of_handles (c : client) (w : World) (b : BatchRequest) (resp : HttpResponse)
    (body : Payload) (v : Response)
    (hurl : w.rejectURL c.url = none)
    (hdo : (c.executor w).Do (c.request b) = .ok resp)
    (hstatus : resp.StatusCode ≠ 204)
    (hbody : resp.Body = .ok body)
    (hdec : unmarshalResponse body = .ok v)
    (hh : v.Handles ≠ []) :
    (c.send w b).err = chainErrors none v.ValidationStatus := by
  have hlen : ¬ v.Handles.length = 0 := by
    intro h; exact hh (List.length_eq_zero.mp h)
  rw [send_of_response c w b resp hurl hdo]
  simp [hstatus, hbody, hdec, hlen]

theorem send_of_failure (c : client) (w : World) (b : BatchRequest) (e : GoError)
    (hurl : w.rejectURL c.url = none)
    (hdo : (c.executor w).Do (c.request b) = .error e) :
    c.send w b = ⟨some e, [.marshal, .newRequest, .roundTrip], some (c.request b)⟩ := by
  have hreq : newRequestWithContext w (c.ctx.getD Context.background) "POST" c.url
      (encodeBatchRequest b) =
      .ok ⟨c.ctx.getD Context.background, "POST", c.url, [], encodeBatchRequest b⟩ := by
    simp [newRequestWithContext, hurl]
  have hset : HttpRequest.setHeader
      ⟨c.ctx.getD Context.background, "POST", c.url, [], encodeBatchRequest b⟩ "Content-Type"
      "application/json" = c.request b := rfl
  have hdo' : (c.httpClient.getD w.defaultClient).Do (c.request b) = .error e := hdo
  simp only [client.send, jsonMarshal, hreq, hset, hdo']

/-! ## Response interpretation -/

/-- C1: when the exchange yields a response whose status is not 204 and whose
body decodes to a `Response` with a non-empty handles list, `send` (hence
`Send` and `SendUpsert`, which only choose the envelope) returns nil exactly
when no `validation_status` entry holds an error; the returned value is the one
obtained with every entry's warnings replaced by anything else, so warnings
never make the call fail. -/
theorem send_ok_iff_no_validation_error (c : client) (w : World) (b : BatchRequest)
    (resp : HttpResponse) (body : Payload) (v : Response)
    (hurl : w.rejectURL c.url = none)
    (hdo : (c.executor w).Do (c.request b) = .ok resp)
    (hstatus : resp.StatusCode ≠ 204)
    (hbody : resp.Body = .ok body)
    (hdec : unmarshalResponse body = .ok v)
    (hh : v.Handles ≠ []) :
    ((c.send w b).err = none ↔ ∀ vv ∈ v.ValidationStatus, vv.Errors = []) ∧
    ∀ ws : ValidationStatus → List Error,
      (c.send w b).err =
        chainErrors none (v.ValidationStatus.map (fun vv => { vv with Warnings := ws vv })) := by
  have herr := send_err_of_handles c w b resp body v hurl hdo hstatus hbody hdec hh
  refine ⟨?_, fun ws => ?_⟩
  · rw [herr]; exact chainErrors_none_iff _
  · rw [herr, chainErrors_erase_warnings]

/-- Witness of C1: at status 200, a body with handle `h1` whose only entry
holds two warnings and no error yields nil; the body with handle `h1` whose
entry holds the error `bad price` does not; nor does the body whose key
`validation_status` comes twice, first with an entry holding an error, then
with the entry `{}`, which is decoded over the first. -/
theorem send_ok_iff_no_validation_error_witness :
    (sampleClient.send (answering 200 bodyWarningsOnly) sampleEnvelope).err = none ∧
    (sampleClient.send (answering 200 bodyBadPrice) sampleEnvelope).err ≠ none ∧
    (sampleClient.send (answering 200 bodyRepeatedStatusKey) sampleEnvelope).err ≠ none :=
  ⟨(send_ok_iff_no_validation_error sampleClient (answering 200 bodyWarningsOnly) sampleEnvelope
      ⟨200, .ok (.doc bodyWarningsOnly)⟩ (.doc bodyWarningsOnly)
      ⟨["h1"], [⟨[], "r1", [⟨"odd size", "hint", 7, "t3"⟩, ⟨"long title", "hint", 8, "t5"⟩]⟩]⟩
      rfl rfl (by decide) rfl rfl (by decide)).1.mpr (by decide),
   fun h => absurd
    ((send_ok_iff_no_validation_error sampleClient (answering 200 bodyBadPrice) sampleEnvelope
      ⟨200, .ok (.doc bodyBadPrice)⟩ (.doc bodyBadPrice)
      ⟨["h1"], [⟨[⟨"bad price", "param", 100, "t1"⟩], "r1", []⟩]⟩
      rfl rfl (by decide) rfl rfl (by decide)).1.mp h) (by decide),
   fun h => absurd
    ((send_ok_iff_no_validation_error sampleClient (answering 200 bodyRepeatedStatusKey)
      sampleEnvelope ⟨200, .ok (.doc bodyRepeatedStatusKey)⟩ (.doc bodyRepeatedStatusKey)
      ⟨["h1"], [⟨[⟨"x", "", 1, ""⟩], "", []⟩]⟩
      rfl rfl (by decide) rfl rfl (by decide)).1.mp h) (by decide)⟩

/-- C2: when the exchange yields a response whose status is not 204 and whose
body decodes to a `Response` with a non-empty handles list, the text of the
error returned by `send` contains the message of every error of every
`validation_status` entry. -/
theorem send_error_text_contains_every_message (c : client) (w : World) (b : BatchRequest)
    (resp : HttpResponse) (body : Payload) (v : Response) (vv : ValidationStatus) (e : Error)
    (hurl : w.rejectURL c.url = none)
    (hdo : (c.executor w).Do (c.request b) = .ok resp)
    (hstatus : resp.StatusCode ≠ 204)
    (hbody : resp.Body = .ok body)
    (hdec : unmarshalResponse body = .ok v)
    (hh : v.Handles ≠ [])
    (hvv : vv ∈ v.ValidationStatus)
    (he : e ∈ vv.Errors) :
    ∃ g, (c.send w b).err = some g ∧ e.Message.data <:+: g.Error.data := by
  have herr := send_err_of_handles c w b resp body v hurl hdo hstatus hbody hdec hh
  have hmem : e ∈ v.ValidationStatus.flatMap (fun vv => vv.Errors) :=
    List.mem_flatMap.mpr ⟨vv, hvv, he⟩
  have hne : v.ValidationStatus.flatMap (fun vv => vv.Errors) ≠ [] :=
    List.ne_nil_of_mem hmem
  obtain ⟨g, hg, -, -, hall⟩ := (foldl_chainStep_none _).2 hne
  refine ⟨g, ?_, hall e hmem⟩
  rw [herr, chainErrors_eq_foldl, hg]

/-- Witness of C2: two entries with one error each (`bad price` for `r1`,
`bad title` for `r2`): the text of the returned error contains the second
message as well as the first. When the key `errors` comes twice in an entry,
first with message `x`, then with type `y` only, the second error is decoded
over the first and the text contains `x`. -/
theorem send_error_text_contains_every_message_witness :
    (∃ g, (sampleClient.send (answering 200 bodyTwoErrors) sampleEnvelope).err = some g ∧
      "bad title".data <:+: g.Error.data) ∧
    (∃ g, (sampleClient.send (answering 200 bodyTwoErrors) sampleEnvelope).err = some g ∧
      "bad price".data <:+: g.Error.data) ∧
    (∃ g, (sampleClient.send (answering 200 bodyRepeatedErrorsKey) sampleEnvelope).err = some g ∧
      "x".data <:+: g.Error.data) :=
  ⟨send_error_text_contains_every_message sampleClient (answering 200 bodyTwoErrors)
      sampleEnvelope ⟨200, .ok (.doc bodyTwoErrors)⟩ (.doc bodyTwoErrors)
      ⟨["h1"], [⟨[⟨"bad price", "param", 100, "t1"⟩], "r1", [⟨"odd size", "hint", 7, "t3"⟩]⟩,
        ⟨[⟨"bad title", "param", 101, "t4"⟩], "r2", []⟩]⟩
      ⟨[⟨"bad title", "param", 101, "t4"⟩], "r2", []⟩ ⟨"bad title", "param", 101, "t4"⟩
      rfl rfl (by decide) rfl rfl (by decide) (by decide) (by decide),
   send_error_text_contains_every_message sampleClient (answering 200 bodyTwoErrors)
      sampleEnvelope ⟨200, .ok (.doc bodyTwoErrors)⟩ (.doc bodyTwoErrors)
      ⟨["h1"], [⟨[⟨"bad price", "param", 100, "t1"⟩], "r1", [⟨"odd size", "hint", 7, "t3"⟩]⟩,
        ⟨[⟨"bad title", "param", 101, "t4"⟩], "r2", []⟩]⟩
      ⟨[⟨"bad price", "param", 100, "t1"⟩], "r1", [⟨"odd size", "hint", 7, "t3"⟩]⟩
      ⟨"bad price", "param", 100, "t1"⟩
      rfl rfl (by decide) rfl rfl (by decide) (by decide) (by decide),
   send_error_text_contains_every_message sampleClient (answering 200 bodyRepeatedErrorsKey)
      sampleEnvelope ⟨200, .ok (.doc bodyRepeatedErrorsKey)⟩ (.doc bodyRepeatedErrorsKey)
      ⟨["h1"], [⟨[⟨"x", "y", 1, ""⟩], "", []⟩]⟩
      ⟨[⟨"x", "y", 1, ""⟩], "", []⟩ ⟨"x", "y", 1, ""⟩
      rfl rfl (by decide) rfl rfl (by decide) (by decide) (by decide)⟩

/-- C10: when the exchange yields a response whose status is not 204 and whose
body decodes to a `Response` with a non-empty handles list and at least one
embedded validation error, the text of the error returned by `send` is the
renderings `<type> <code> <message>` of all embedded errors, in
`validation_status` order and `errors` order, joined by `", "`; with exactly
one embedded error the returned value is that `Error` itself. -/
theorem send_error_text_is_joined_renderings (c : client) (w : World) (b : BatchRequest)
    (resp : HttpResponse) (body : Payload) (v : Response)
    (hurl : w.rejectURL c.url = none)
    (hdo : (c.executor w).Do (c.request b) = .ok resp)
    (hstatus : resp.StatusCode ≠ 204)
    (hbody : resp.Body = .ok body)
    (hdec : unmarshalResponse body = .ok v)
    (hh : v.Handles ≠ [])
    (hne : embeddedErrors v ≠ []) :
    ∃ g, (c.send w b).err = some g ∧
      g.Error = String.intercalate ", "
        ((embeddedErrors v).map
          (fun e => e.Type_ ++ " " ++ toString e.Code ++ " " ++ e.Message)) ∧
      ∀ e, embeddedErrors v = [e] → g = .app e := by
  have herr := send_err_of_handles c w b resp body v hurl hdo hstatus hbody hdec hh
  obtain ⟨g, hg, htext, hone, -⟩ := (foldl_chainStep_none _).2 hne
  refine ⟨g, ?_, htext, hone⟩
  rw [herr, chainErrors_eq_foldl]
  exact hg

/-- Witness of C10: for the body with the errors `bad price` (type `param`,
code 100) and `bad title` (type `param`, code 101) in two entries, the text is
`param 100 bad price, param 101 bad title`. For the body whose entry has the
key `errors` twice, first with message `x` and code 1, then with type `y`, the
returned value is the single `Error` with message `x`, type `y` and code 1,
and its text is `y 1 x`. -/
theorem send_error_text_is_joined_renderings_witness :
    (∃ g, (sampleClient.send (answering 200 bodyTwoErrors) sampleEnvelope).err = some g ∧
      g.Error = "param 100 bad price, param 101 bad title") ∧
    (∃ g, (sampleClient.send (answering 200 bodyRepeatedErrorsKey) sampleEnvelope).err = some g ∧
      g.Error = "y 1 x" ∧ g = .app ⟨"x", "y", 1, ""⟩) :=
  ⟨(send_error_text_is_joined_renderings sampleClient (answering 200 bodyTwoErrors)
      sampleEnvelope ⟨200, .ok (.doc bodyTwoErrors)⟩ (.doc bodyTwoErrors)
      ⟨["h1"], [⟨[⟨"bad price", "param", 100, "t1"⟩], "r1", [⟨"odd size", "hint", 7, "t3"⟩]⟩,
        ⟨[⟨"bad title", "param", 101, "t4"⟩], "r2", []⟩]⟩
      rfl rfl (by decide) rfl rfl (by decide) (by decide)).imp
    (fun _ h => ⟨h.1, h.2.1.trans (by decide)⟩),
   (send_error_text_is_joined_renderings sampleClient (answering 200 bodyRepeatedErrorsKey)
      sampleEnvelope ⟨200, .ok (.doc bodyRepeatedErrorsKey)⟩ (.doc bodyRepeatedErrorsKey)
      ⟨["h1"], [⟨[⟨"x", "y", 1, ""⟩], "", []⟩]⟩
      rfl rfl (by decide) rfl rfl (by decide) (by decide)).imp
    (fun _ h => ⟨h.1, h.2.1.trans (by decide), h.2.2 _ rfl⟩)⟩

/-- C4: when the exchange yields a response with status 204, `send` returns
nil whatever the body stream holds (unreadable, not JSON, error-shaped), and
it neither reads the body nor runs a decoder on it. -/
theorem send_status_204 (c : client) (w : World) (b : BatchRequest) (resp : HttpResponse)
    (hurl : w.rejectURL c.url = none)
    (hdo : (c.executor w).Do (c.request b) = .ok resp)
    (h204 : resp.StatusCode = 204) :
    (c.send w b).err = none ∧
    Step.readBody ∉ (c.send w b).steps ∧
    Step.unmarshalResponse ∉ (c.send w b).steps ∧
    Step.unmarshalError ∉ (c.send w b).steps := by
  rw [send_of_response c w b resp hurl hdo]
  simp [h204]

/-- Witness of C4: status 204 with a body that is not JSON, and status 204 with
the error-shaped `Invalid token` body: nil in both cases. -/
theorem send_status_204_witness :
    (sampleClient.send (answeringWith 204 (.ok (.invalid "invalid character"))) sampleEnvelope).err
      = none ∧
    (sampleClient.send (answering 204 bodyInvalidToken) sampleEnvelope).err = none :=
  ⟨(send_status_204 sampleClient (answeringWith 204 (.ok (.invalid "invalid character")))
      sampleEnvelope ⟨204, .ok (.invalid "invalid character")⟩ rfl rfl rfl).1,
   (send_status_204 sampleClient (answering 204 bodyInvalidToken)
      sampleEnvelope ⟨204, .ok (.doc bodyInvalidToken)⟩ rfl rfl rfl).1⟩

/-- C6: when the executor fails the exchange with error `e`, `send` returns
exactly `e`, for every envelope, and neither reads nor decodes a body. -/
theorem send_transport_failure (c : client) (w : World) (b : BatchRequest) (e : GoError)
    (hurl : w.rejectURL c.url = none)
    (hdo : (c.executor w).Do (c.request b) = .error e) :
    (c.send w b).err = some e ∧
    Step.readBody ∉ (c.send w b).steps ∧
    Step.unmarshalResponse ∉ (c.send w b).steps ∧
    Step.unmarshalError ∉ (c.send w b).steps := by
  rw [send_of_failure c w b e hurl hdo]
  simp

/-- Witness of C6: an executor that refuses the connection. -/
theorem send_transport_failure_witness :
    (sampleClient.send (failing (.foreign "connection refused")) sampleEnvelope).err =
      some (.foreign "connection refused") :=
  (send_transport_failure sampleClient (failing (.foreign "connection refused")) sampleEnvelope
    (.foreign "connection refused") rfl rfl).1

/-! ## The endpoint -/

/-- C9: for every version string `v` and every catalog ID `n` below `2 ^ 64`,
the client built by `NewClient v n` has the URL
`https://graph.facebook.com/` ++ `v` ++ `/` ++ decimal `n` ++ `/items_batch`,
whatever `v` is, and `SetContext` and `SetHttpClient` leave the URL of any
client unchanged. -/
theorem NewClient_url (v : String) (n : Nat) (hn : n < 2 ^ 64) :
    (NewClient v n).url =
      "https://graph.facebook.com/" ++ v ++ "/" ++ Nat.repr n ++ "/items_batch" ∧
    (∀ (c : client) (ctx : Context), (c.SetContext ctx).url = c.url) ∧
    (∀ (c : client) (cli : HttpClient), (c.SetHttpClient cli).url = c.url) := by
  refine ⟨?_, fun _ _ => rfl, fun _ _ => rfl⟩
  simp only [NewClient, Nat.mod_eq_of_lt hn]
  rfl

/-- Witness of C9: version `v19.0` and catalog 123456. -/
theorem NewClient_url_witness :
    (NewClient "v19.0" 123456).url = "https://graph.facebook.com/v19.0/123456/items_batch" :=
  (NewClient_url "v19.0" 123456 (by decide)).1.trans (by decide)

/-! ## Optional product fields -/

theorem key_mem_omitStr (k' k s : String) :
    k' ∈ (omitStr k s).map Prod.fst ↔ s ≠ "" ∧ k' = k := by
  unfold omitStr; split <;> simp_all

theorem key_mem_omitInt (k' k : String) (n : Int) :
    k' ∈ (omitInt k n).map Prod.fst ↔ n ≠ 0 ∧ k' = k := by
  unfold omitInt; split <;> simp_all

theorem key_mem_omitList {α : Type} (k' k : String) (enc : α → Json) (xs : List α) :
    k' ∈ (omitList k enc xs).map Prod.fst ↔ xs ≠ [] ∧ k' = k := by
  unfold omitList; split <;> simp_all

theorem key_mem_omitPtr {α : Type} (k' k : String) (enc : α → Json) (x : Option α) :
    k' ∈ (omitPtr k enc x).map Prod.fst ↔ x ≠ none ∧ k' = k := by
  cases x <;> simp [omitPtr]

theorem key_mem_keepStr (k' k s : String) :
    k' ∈ (keepStr k s).map Prod.fst ↔ k' = k := by
  simp [keepStr]

theorem mem_omitStr (kv : String × Json) (k s : String) :
    kv ∈ omitStr k s ↔ s ≠ "" ∧ kv = (k, .str s) := by
  unfold omitStr; split <;> simp_all

theorem mem_omitInt (kv : String × Json) (k : String) (n : Int) :
    kv ∈ omitInt k n ↔ n ≠ 0 ∧ kv = (k, .num n) := by
  unfold omitInt; split <;> simp_all

theorem mem_omitList {α : Type} (kv : String × Json) (k : String) (enc : α → Json)
    (xs : List α) :
    kv ∈ omitList k enc xs ↔ xs ≠ [] ∧ kv = (k, .arr (xs.map enc)) := by
  unfold omitList; split <;> simp_all

theorem mem_omitPtr {α : Type} (kv : String × Json) (k : String) (enc : α → Json)
    (x : Option α) :
    kv ∈ omitPtr k enc x ↔ ∃ a, x = some a ∧ kv = (k, enc a) := by
  cases x <;> simp [omitPtr]

theorem mem_keepStr (kv : String × Json) (k s : String) :
    kv ∈ keepStr k s ↔ kv = (k, .str s) := by
  simp [keepStr]

theorem value_omitStr (k s : String) :
    ∀ kv ∈ omitStr k s, kv.1 ∈ optionalProductKeys →
      kv.2 ≠ .null ∧ kv.2 ≠ .str "" ∧ kv.2 ≠ .num 0 ∧ kv.2 ≠ .arr [] := by
  intro kv hkv _
  obtain ⟨hs, rfl⟩ := (mem_omitStr kv k s).mp hkv
  simp [hs]

theorem value_omitInt (k : String) (n : Int) :
    ∀ kv ∈ omitInt k n, kv.1 ∈ optionalProductKeys →
      kv.2 ≠ .null ∧ kv.2 ≠ .str "" ∧ kv.2 ≠ .num 0 ∧ kv.2 ≠ .arr [] := by
  intro kv hkv _
  obtain ⟨hn, rfl⟩ := (mem_omitInt kv k n).mp hkv
  simp [hn]

theorem value_omitList {α : Type} (k : String) (enc : α → Json) (xs : List α) :
    ∀ kv ∈ omitList k enc xs, kv.1 ∈ optionalProductKeys →
      kv.2 ≠ .null ∧ kv.2 ≠ .str "" ∧ kv.2 ≠ .num 0 ∧ kv.2 ≠ .arr [] := by
  intro kv hkv _
  obtain ⟨hx, rfl⟩ := (mem_omitList kv k enc xs).mp hkv
  simp [hx]

theorem value_omitApplink (k : String) (x : Option Applink) :
    ∀ kv ∈ omitPtr k encodeApplink x, kv.1 ∈ optionalProductKeys →
      kv.2 ≠ .null ∧ kv.2 ≠ .str "" ∧ kv.2 ≠ .num 0 ∧ kv.2 ≠ .arr [] := by
  intro kv hkv _
  obtain ⟨a, -, rfl⟩ := (mem_omitPtr kv k encodeApplink x).mp hkv
  simp [encodeApplink]

/-- C8: in the object encoded for any `Product`, the key of each of the 29
fields tagged `omitempty` is present exactly when the field is set (non-empty
string, non-zero inventory, non-empty list, non-nil applink), the seven keys
`id`, `availability`, `condition`, `description`, `link`, `price` and `title`
are always present, and no optional key carries `null`, `""`, `0` or `[]`. -/
theorem product_optional_keys (p : Product) :
    (
("additional_image_link" ∈ (encodeProduct p).keys ↔ p.AdditionalImageLink ≠ []) ∧
    ("additional_variant_attribute" ∈ (encodeProduct p).keys ↔ p.AdditionalVariantAttribute ≠ []) ∧
    ("age_group" ∈ (encodeProduct p).keys ↔ p.AgeGroup ≠ "") ∧
    ("applink" ∈ (encodeProduct p).keys ↔ p.Applink ≠ none) ∧
    ("brand" ∈ (encodeProduct p).keys ↔ p.Brand ≠ "") ∧
    ("color" ∈ (encodeProduct p).keys ↔ p.Color ≠ "") ∧
    ("custom_label_0" ∈ (encodeProduct p).keys ↔ p.CustomLabel0 ≠ "") ∧
    ("custom_label_1" ∈ (encodeProduct p).keys ↔ p.CustomLabel1 ≠ "") ∧
    ("custom_label_2" ∈ (encodeProduct p).keys ↔ p.CustomLabel2 ≠ "") ∧
    ("custom_label_3" ∈ (encodeProduct p).keys ↔ p.CustomLabel3 ≠ "") ∧
    ("custom_label_4" ∈ (encodeProduct p).keys ↔ p.CustomLabel4 ≠ "") ∧
    ("disabled_capabilities" ∈ (encodeProduct p).keys ↔ p.DisabledCapabilities ≠ []) ∧
    ("gender" ∈ (encodeProduct p).keys ↔ p.Gender ≠ "") ∧
    ("google_product_category" ∈ (encodeProduct p).keys ↔ p.GoogleProductCategory ≠ "") ∧
    ("gtin" ∈ (encodeProduct p).keys ↔ p.Gtin ≠ "") ∧
    ("image" ∈ (encodeProduct p).keys ↔ p.Image ≠ []) ∧
    ("image_link" ∈ (encodeProduct p).keys ↔ p.ImageLink ≠ "") ∧
    ("video" ∈ (encodeProduct p).keys ↔ p.Video ≠ []) ∧
    ("inventory" ∈ (encodeProduct p).keys ↔ p.Inventory ≠ 0) ∧
    ("item_group_id" ∈ (encodeProduct p).keys ↔ p.ItemGroupId ≠ "") ∧
    ("manufacturer_part_number" ∈ (encodeProduct p).keys ↔ p.ManufacturerPartNumber ≠ "") ∧
    ("mpn" ∈ (encodeProduct p).keys ↔ p.Mpn ≠ "") ∧
    ("material" ∈ (encodeProduct p).keys ↔ p.Material ≠ "") ∧
    ("pattern" ∈ (encodeProduct p).keys ↔ p.Pattern ≠ "") ∧
    ("product_tags" ∈ (encodeProduct p).keys ↔ p.ProductTags ≠ []) ∧
    ("sale_price" ∈ (encodeProduct p).keys ↔ p.SalePrice ≠ "") ∧
    ("sale_price_effective_date" ∈ (encodeProduct p).keys ↔ p.SalePriceEffectiveDate ≠ "") ∧
    ("shipping" ∈ (encodeProduct p).keys ↔ p.Shipping ≠ "") ∧
    ("size" ∈ (encodeProduct p).keys ↔ p.Size ≠ "")) ∧
    (
"id" ∈ (encodeProduct p).keys ∧
    "availability" ∈ (encodeProduct p).keys ∧
    "condition" ∈ (encodeProduct p).keys ∧
    "description" ∈ (encodeProduct p).keys ∧
    "link" ∈ (encodeProduct p).keys ∧
    "price" ∈ (encodeProduct p).keys ∧
    "title" ∈ (encodeProduct p).keys) ∧
    ∀ kv ∈ (encodeProduct p).members, kv.1 ∈ optionalProductKeys →
      kv.2 ≠ .null ∧ kv.2 ≠ .str "" ∧ kv.2 ≠ .num 0 ∧ kv.2 ≠ .arr [] := by
  refine ⟨?_, ?_, ?_⟩
  · simp only [Json.keys, Json.members, encodeProduct, productMembers, List.map_append,
      List.mem_append, key_mem_omitStr, key_mem_omitInt, key_mem_omitList, key_mem_omitPtr,
      key_mem_keepStr]
    simp
  · simp only [Json.keys, Json.members, encodeProduct, productMembers, List.map_append,
      List.mem_append, key_mem_omitStr, key_mem_omitInt, key_mem_omitList, key_mem_omitPtr,
      key_mem_keepStr]
    simp
  · simp only [Json.members, encodeProduct, productMembers, List.forall_mem_append]
    repeat' apply And.intro
    all_goals first
      | exact value_omitStr _ _
      | exact value_omitInt _ _
      | exact value_omitList _ _ _
      | exact value_omitApplink _ _
      | (intro kv hkv hopt
         rw [mem_keepStr] at hkv
         subst hkv
         simp [optionalProductKeys] at hopt)

/-! ## The envelope -/

theorem send_sent (c : client) (w : World) (b : BatchRequest)
    (hurl : w.rejectURL c.url = none) :
    (c.send w b).sent = some (c.request b) := by
  cases hdo : (c.executor w).Do (c.request b) with
  | error e => rw [send_of_failure c w b e hurl hdo]
  | ok resp =>
    rw [send_of_response c w b resp hurl hdo]
    repeat' split
    all_goals rfl

/-- C5: for every list of operations `rs` and every token, `Send` submits the
envelope with `access_token` the token, `item_type` `PRODUCT_ITEM`, the
operations `rs` and `allow_upsert` false, and `SendUpsert` the same envelope
with `allow_upsert` true. The encoded document has exactly the members
`access_token`, `item_type`, `requests` and `allow_upsert`; `requests` has one
entry per operation, the i-th being the object with `method` the method of the
i-th operation and `data` the object encoded for its product; that document is
the body of the request handed to the executor. The members of the object
encoded for a product are spelled out field by field, down to the media,
applink and variant-attribute values. -/
theorem envelope_of_Send_and_SendUpsert (c : client) (w : World) (rs : List Request)
    (tok : String) :
    c.Send w (some rs) tok = c.send w ⟨tok, "PRODUCT_ITEM", some rs, false⟩ ∧
    c.SendUpsert w (some rs) tok = c.send w ⟨tok, "PRODUCT_ITEM", some rs, true⟩ ∧
    (∀ u : Bool, jsonMarshal ⟨tok, "PRODUCT_ITEM", some rs, u⟩ =
      .ok (.obj [("access_token", .str tok),
                 ("item_type", .str "PRODUCT_ITEM"),
                 ("requests", .arr (rs.map (fun r =>
                   Json.obj [("method", .str r.Method),
                             ("data", .obj (productMembers r.Data))]))),
                 ("allow_upsert", .bool u)])) ∧
    (rs.map encodeRequest).length = rs.length ∧
    (∀ i (h : i < rs.length), (rs.map encodeRequest)[i]? =
      some (.obj [("method", .str rs[i].Method), ("data", .obj (productMembers rs[i].Data))])) ∧
    (w.rejectURL c.url = none →
      (c.Send w (some rs) tok).sent.map (fun r => r.Body) =
        (jsonMarshal ⟨tok, "PRODUCT_ITEM", some rs, false⟩).toOption ∧
      (c.SendUpsert w (some rs) tok).sent.map (fun r => r.Body) =
        (jsonMarshal ⟨tok, "PRODUCT_ITEM", some rs, true⟩).toOption) ∧
    (∀ (p : Product) (kv : String × Json), kv ∈ productMembers p ↔
        p.AdditionalImageLink ≠ [] ∧ kv = ("additional_image_link", .arr (p.AdditionalImageLink.map Json.str)) ∨
        p.AdditionalVariantAttribute ≠ [] ∧ kv = ("additional_variant_attribute", .arr (p.AdditionalVariantAttribute.map encodeStringMap)) ∨
        p.AgeGroup ≠ "" ∧ kv = ("age_group", .str p.AgeGroup) ∨
        (∃ a, p.Applink = some a ∧ kv = ("applink", encodeApplink a)) ∨
        kv = ("availability", .str p.Availability) ∨
        p.Brand ≠ "" ∧ kv = ("brand", .str p.Brand) ∨
        p.Color ≠ "" ∧ kv = ("color", .str p.Color) ∨
        kv = ("condition", .str p.Condition) ∨
        p.CustomLabel0 ≠ "" ∧ kv = ("custom_label_0", .str p.CustomLabel0) ∨
        p.CustomLabel1 ≠ "" ∧ kv = ("custom_label_1", .str p.CustomLabel1) ∨
        p.CustomLabel2 ≠ "" ∧ kv = ("custom_label_2", .str p.CustomLabel2) ∨
        p.CustomLabel3 ≠ "" ∧ kv = ("custom_label_3", .str p.CustomLabel3) ∨
        p.CustomLabel4 ≠ "" ∧ kv = ("custom_label_4", .str p.CustomLabel4) ∨
        kv = ("description", .str p.Description) ∨
        p.DisabledCapabilities ≠ [] ∧ kv = ("disabled_capabilities", .arr (p.DisabledCapabilities.map Json.str)) ∨
        p.Gender ≠ "" ∧ kv = ("gender", .str p.Gender) ∨
        p.GoogleProductCategory ≠ "" ∧ kv = ("google_product_category", .str p.GoogleProductCategory) ∨
        p.Gtin ≠ "" ∧ kv = ("gtin", .str p.Gtin) ∨
        kv = ("id", .str p.Id) ∨
        p.Image ≠ [] ∧ kv = ("image", .arr (p.Image.map encodeMedia)) ∨
        p.ImageLink ≠ "" ∧ kv = ("image_link", .str p.ImageLink) ∨
        p.Video ≠ [] ∧ kv = ("video", .arr (p.Video.map encodeMedia)) ∨
        p.Inventory ≠ 0 ∧ kv = ("inventory", .num p.Inventory) ∨
        p.ItemGroupId ≠ "" ∧ kv = ("item_group_id", .str p.ItemGroupId) ∨
        kv = ("link", .str p.Link) ∨
        p.ManufacturerPartNumber ≠ "" ∧ kv = ("manufacturer_part_number", .str p.ManufacturerPartNumber) ∨
        p.Mpn ≠ "" ∧ kv = ("mpn", .str p.Mpn) ∨
        p.Material ≠ "" ∧ kv = ("material", .str p.Material) ∨
        p.Pattern ≠ "" ∧ kv = ("pattern", .str p.Pattern) ∨
        kv = ("price", .str p.Price) ∨
        p.ProductTags ≠ [] ∧ kv = ("product_tags", .arr (p.ProductTags.map Json.str)) ∨
        p.SalePrice ≠ "" ∧ kv = ("sale_price", .str p.SalePrice) ∨
        p.SalePriceEffectiveDate ≠ "" ∧ kv = ("sale_price_effective_date", .str p.SalePriceEffectiveDate) ∨
        p.Shipping ≠ "" ∧ kv = ("shipping", .str p.Shipping) ∨
        p.Size ≠ "" ∧ kv = ("size", .str p.Size) ∨
        kv = ("title", .str p.Title)) ∧
    (∀ m : Media, encodeMedia m =
      .obj [("url", .str m.Url),
            ("tag", match m.Tag with
              | none => .null
              | some ts => .arr (ts.map Json.str))]) ∧
    (∀ a : Applink, encodeApplink a = .obj [
        ("ios_url", .str a.IOSUrl),
        ("ios_app_store_id", .str a.IOSAppStoreID),
        ("ios_app_name", .str a.IOSAppName),
        ("iphone_url", .str a.IPhoneUrl),
        ("iphone_app_store_id", .str a.IPhoneAppStoreID),
        ("iphone_app_name", .str a.IPhoneAppName),
        ("ipad_url", .str a.IPadUrl),
        ("ipad_app_store_id", .str a.IPadAppStoreID),
        ("ipad_app_name", .str a.IPadName),
        ("android_url", .str a.AndroidUrl),
        ("android_package", .str a.AndroidPackage),
        ("android_class", .str a.AndroidClass),
        ("android_app_name", .str a.AndroidName),
        ("windows_phone_url", .str a.WindowsPhoneUrl),
        ("windows_phone_app_id", .str a.WindowsPhoneAppID),
        ("windows_phone_app_name", .str a.WindowsPhoneAppName)]) ∧
    encodeStringMap none = .null ∧
    (∀ kvs : List (String × String), encodeStringMap (some kvs) =
      .obj ((kvs.insertionSort (fun x y => ¬ y.1 < x.1)).map (fun x => (x.1, .str x.2)))) := by
  refine ⟨rfl, rfl, fun _ => rfl, List.length_map _ _, ?_, fun hurl => ⟨?_, ?_⟩, ?_, ?_,
    fun _ => rfl, rfl, fun _ => rfl⟩
  · intro i h
    rw [List.getElem?_map, List.getElem?_eq_getElem h]
    rfl
  · show (c.send w ⟨tok, "PRODUCT_ITEM", some rs, false⟩).sent.map (fun r => r.Body) = _
    rw [send_sent c w _ hurl]; rfl
  · show (c.send w ⟨tok, "PRODUCT_ITEM", some rs, true⟩).sent.map (fun r => r.Body) = _
    rw [send_sent c w _ hurl]; rfl
  · intro p kv
    simp only [productMembers, List.mem_append, mem_omitStr, mem_omitInt, mem_omitList,
      mem_omitPtr, mem_keepStr, or_assoc]
  · intro m
    cases hm : m.Tag <;> simp [encodeMedia, encodeStrings, hm]

/-- Witness of C5: one `UPDATE` operation sent through `SendUpsert` reaches the
executor as the envelope written out here, with `allow_upsert` true. -/
theorem envelope_of_Send_and_SendUpsert_witness :
    (sampleClient.SendUpsert (answering 200 bodyClean) (some [⟨"UPDATE", sampleProduct⟩])
        "token").sent.map (fun r => r.Body) =
      some (.obj [("access_token", .str "token"),
                  ("item_type", .str "PRODUCT_ITEM"),
                  ("requests", .arr [
                    .obj [("method", .str "UPDATE"),
                          ("data", .obj [("availability", .str "in stock"),
                                         ("brand", .str "acme"),
                                         ("condition", .str "new"),
                                         ("description", .str "a kettle"),
                                         ("id", .str "sku-1"),
                                         ("inventory", .num 3),
                                         ("link", .str "https://example.com/sku-1"),
                                         ("price", .str "10 USD"),
                                         ("title", .str "Kettle")])]]),
                  ("allow_upsert", .bool true)]) :=
  (((envelope_of_Send_and_SendUpsert sampleClient (answering 200 bodyClean)
    [⟨"UPDATE", sampleProduct⟩] "token").2.2.2.2.2.1 rfl).2).trans rfl

/-! ## The two response shapes -/

theorem foldlM_cons_ok {α β : Type} (f : β → α → Except GoError β) (b b' : β) (a : α)
    (l : List α) (h : f b a = .ok b') :
    (a :: l).foldlM f b = l.foldlM f b' := by
  rw [List.foldlM_cons, h]
  rfl

theorem responseMember_skip (cur : StoredResponse) (kv : String × Json)
    (h : selectsResponseField kv.1 = false) : responseMember cur kv = .ok cur := by
  simp only [selectsResponseField, Bool.or_eq_false_iff] at h
  simp [responseMember, h.1, h.2]

theorem foldlM_responseMember_skip (members : List (String × Json)) (cur : StoredResponse)
    (h : ∀ kv ∈ members, selectsResponseField kv.1 = false) :
    members.foldlM responseMember cur = .ok cur := by
  induction members with
  | nil => rfl
  | cons kv rest ih =>
    rw [foldlM_cons_ok _ _ _ _ _ (responseMember_skip cur kv (h kv (List.mem_cons_self _ _)))]
    exact ih (fun kv' hkv' => h kv' (List.mem_cons_of_mem _ hkv'))

theorem errorMember_skip (path : String) (cur : Error) (kv : String × Json)
    (h : selectsErrorField kv.1 = false) : errorMember path cur kv = .ok cur := by
  simp only [selectsErrorField, Bool.or_eq_false_iff] at h
  simp [errorMember, h.1.1.1, h.1.1.2, h.1.2, h.2]

theorem foldlM_errorMember_skip (path : String) (members : List (String × Json)) (cur : Error)
    (h : ∀ kv ∈ members, selectsErrorField kv.1 = false) :
    members.foldlM (errorMember path) cur = .ok cur := by
  induction members with
  | nil => rfl
  | cons kv rest ih =>
    rw [foldlM_cons_ok _ _ _ _ _ (errorMember_skip path cur kv (h kv (List.mem_cons_self _ _)))]
    exact ih (fun kv' hkv' => h kv' (List.mem_cons_of_mem _ hkv'))

theorem errorMembers_not_response (m t : String) (code : Int) (f : String) :
    ∀ kv ∈ errorMembers m t code f, selectsResponseField kv.1 = false := by
  intro kv hkv
  simp only [errorMembers, List.mem_cons, List.mem_singleton, List.not_mem_nil, or_false] at hkv
  rcases hkv with rfl | rfl | rfl | rfl <;> rfl

theorem decodeInt_num (path : String) (cur code : Int)
    (hcode : -(2 : Int) ^ 63 ≤ code ∧ code < (2 : Int) ^ 63) :
    decodeInt path cur (.num code) = .ok code := by
  simp only [decodeInt]
  exact if_pos hcode

theorem foldlM_errorMember_fields (path m t : String) (code : Int) (f : String)
    (hcode : -(2 : Int) ^ 63 ≤ code ∧ code < (2 : Int) ^ 63) :
    ∀ (members : List (String × Json)) (cur : Error),
      (∀ kv ∈ members, kv ∈ errorMembers m t code f ∨ selectsErrorField kv.1 = false) →
      members.foldlM (errorMember path) cur =
        .ok ⟨if "message" ∈ members.map Prod.fst then m else cur.Message,
             if "type" ∈ members.map Prod.fst then t else cur.Type_,
             if "code" ∈ members.map Prod.fst then code else cur.Code,
             if "fbtrace_id" ∈ members.map Prod.fst then f else cur.FbTraceId⟩ := by
  intro members
  induction members with
  | nil => intro cur _; rfl
  | cons kv rest ih =>
    intro cur h
    have hrest : ∀ kv' ∈ rest, kv' ∈ errorMembers m t code f ∨ selectsErrorField kv'.1 = false :=
      fun kv' hkv' => h kv' (List.mem_cons_of_mem _ hkv')
    have k1 : keyMatches "message" "message" = true := by decide
    have k2 : keyMatches "message" "type" = false := by decide
    have k3 : keyMatches "message" "code" = false := by decide
    have k4 : keyMatches "message" "fbtrace_id" = false := by decide
    have k5 : keyMatches "type" "type" = true := by decide
    have k6 : keyMatches "type" "code" = false := by decide
    have k7 : keyMatches "type" "fbtrace_id" = false := by decide
    have k8 : keyMatches "code" "code" = true := by decide
    have k9 : keyMatches "code" "fbtrace_id" = false := by decide
    have k10 : keyMatches "fbtrace_id" "fbtrace_id" = true := by decide
    rcases h kv (List.mem_cons_self _ _) with hkv | hskip
    · simp only [errorMembers, List.mem_cons, List.mem_singleton, List.not_mem_nil,
        or_false] at hkv
      rcases hkv with rfl | rfl | rfl | rfl
      · rw [foldlM_cons_ok _ cur { cur with Message := m } _ _
          (by simp [errorMember, k1, decodeString, Except.map]), ih _ hrest]
        simp [-List.mem_map]
      · rw [foldlM_cons_ok _ cur { cur with Type_ := t } _ _
          (by simp [errorMember, k2, k5, decodeString, Except.map]), ih _ hrest]
        simp [-List.mem_map]
      · rw [foldlM_cons_ok _ cur { cur with Code := code } _ _
          (by simp [errorMember, k3, k6, k8, decodeInt_num _ _ _ hcode, Except.map]),
          ih _ hrest]
        simp [-List.mem_map]
      · rw [foldlM_cons_ok _ cur { cur with FbTraceId := f } _ _
          (by simp [errorMember, k4, k7, k9, k10, decodeString, Except.map]), ih _ hrest]
        simp [-List.mem_map]
    · have h1 : ¬ "message" = kv.1 := by
        intro hk; rw [← hk] at hskip; exact absurd hskip (by decide)
      have h2 : ¬ "type" = kv.1 := by
        intro hk; rw [← hk] at hskip; exact absurd hskip (by decide)
      have h3 : ¬ "code" = kv.1 := by
        intro hk; rw [← hk] at hskip; exact absurd hskip (by decide)
      have h4 : ¬ "fbtrace_id" = kv.1 := by
        intro hk; rw [← hk] at hskip; exact absurd hskip (by decide)
      rw [foldlM_cons_ok _ cur cur _ _ (errorMember_skip path cur kv hskip), ih _ hrest]
      simp [-List.mem_map, h1, h2, h3, h4]

theorem decodeItems_strings (path : String) (hs backing : List String) :
    decodeItems (decodeString path) "" backing (hs.map Json.str) = .ok hs := by
  induction hs generalizing backing with
  | nil => rfl
  | cons h rest ih =>
    simp only [List.map_cons, decodeItems, decodeString, ih]

theorem unmarshalResponse_of_skip (members : List (String × Json))
    (h : ∀ kv ∈ members, selectsResponseField kv.1 = false) :
    unmarshalResponse (.doc (.obj members)) = .ok Response.zero := by
  have hfold : decodeResponse StoredResponse.zero (.obj members) = .ok StoredResponse.zero :=
    foldlM_responseMember_skip members StoredResponse.zero h
  simp only [unmarshalResponse, hfold]
  rfl

theorem send_err_of_no_handles (c : client) (w : World) (b : BatchRequest) (resp : HttpResponse)
    (body : Payload) (v : Response)
    (hurl : w.rejectURL c.url = none)
    (hdo : (c.executor w).Do (c.request b) = .ok resp)
    (hstatus : resp.StatusCode ≠ 204)
    (hbody : resp.Body = .ok body)
    (hdec : unmarshalResponse body = .ok v)
    (hh : v.Handles = []) :
    (c.send w b).err =
      match unmarshalError body with
      | .ok er => some (.app er)
      | .error err => some err := by
  rw [send_of_response c w b resp hurl hdo]
  simp only [hstatus, hbody, hdec, hh, List.length_nil, if_true, if_false]
  cases unmarshalError body <;> rfl

/-- C3, amended: when the exchange yields a response whose status is not 204
and whose body is an object holding the members `message`, `type`, `code` and
`fbtrace_id` once each, with strings `m`, `t`, `f` and an integer `code` in
the range of `int`, in any order and possibly among further members whose
keys select no field of either shape (so no `handles` key), `send` returns the
`Error` value with exactly these four fields. -/
theorem send_error_shaped_body (c : client) (w : World) (b : BatchRequest) (resp : HttpResponse)
    (members extra : List (String × Json)) (m t : String) (code : Int) (f : String)
    (hurl : w.rejectURL c.url = none)
    (hdo : (c.executor w).Do (c.request b) = .ok resp)
    (hstatus : resp.StatusCode ≠ 204)
    (hbody : resp.Body = .ok (.doc (.obj members)))
    (hshape : members.Perm (errorMembers m t code f ++ extra))
    (hextra : ∀ kv ∈ extra, selectsResponseField kv.1 = false ∧ selectsErrorField kv.1 = false)
    (hcode : -(2 : Int) ^ 63 ≤ code ∧ code < (2 : Int) ^ 63) :
    (c.send w b).err = some (.app ⟨m, t, code, f⟩) := by
  have hsub : ∀ kv ∈ members, kv ∈ errorMembers m t code f ∨ kv ∈ extra :=
    fun kv hkv => List.mem_append.mp (hshape.mem_iff.mp hkv)
  have hresp : unmarshalResponse (.doc (.obj members)) = .ok Response.zero :=
    unmarshalResponse_of_skip members (fun kv hkv =>
      (hsub kv hkv).elim (errorMembers_not_response m t code f kv) (fun h => (hextra kv h).1))
  have hkeys : ∀ k ∈ ["message", "type", "code", "fbtrace_id"], k ∈ members.map Prod.fst := by
    intro k hk
    refine (hshape.map Prod.fst).mem_iff.mpr ?_
    rw [List.map_append]
    exact List.mem_append_left _ hk
  have herr : unmarshalError (.doc (.obj members)) = .ok ⟨m, t, code, f⟩ := by
    show members.foldlM (errorMember "Error.") Error.zero = _
    rw [foldlM_errorMember_fields "Error." m t code f hcode members Error.zero
      (fun kv hkv => (hsub kv hkv).imp id (fun h => (hextra kv h).2))]
    rw [if_pos (hkeys _ (by decide)), if_pos (hkeys _ (by decide)),
      if_pos (hkeys _ (by decide)), if_pos (hkeys _ (by decide))]
  rw [send_err_of_no_handles c w b resp _ _ hurl hdo hstatus hbody hresp rfl, herr]

/-- Witness of C3, amended: the `Invalid token` body at status 401, and the
same four members followed by an `error_subcode` member at status 400. -/
theorem send_error_shaped_body_witness :
    (sampleClient.send (answering 401 bodyInvalidToken) sampleEnvelope).err =
      some (.app ⟨"Invalid token", "OAuthException", 190, "t2"⟩) ∧
    (sampleClient.send (answering 400 bodyInvalidTokenSubcode) sampleEnvelope).err =
      some (.app ⟨"Invalid token", "OAuthException", 190, "t2"⟩) :=
  ⟨send_error_shaped_body sampleClient (answering 401 bodyInvalidToken) sampleEnvelope
      ⟨401, .ok (.doc bodyInvalidToken)⟩ (errorMembers "Invalid token" "OAuthException" 190 "t2")
      [] "Invalid token" "OAuthException" 190 "t2" rfl rfl (by decide) rfl
      (by rw [List.append_nil]) (by simp) (by decide),
   send_error_shaped_body sampleClient (answering 400 bodyInvalidTokenSubcode) sampleEnvelope
      ⟨400, .ok (.doc bodyInvalidTokenSubcode)⟩
      (errorMembers "Invalid token" "OAuthException" 190 "t2" ++
        [("error_subcode", Json.num 463)])
      [("error_subcode", Json.num 463)] "Invalid token" "OAuthException" 190 "t2" rfl rfl
      (by decide) rfl (List.Perm.refl _)
      (by
        intro kv hkv
        rw [List.mem_singleton] at hkv
        subst hkv
        exact ⟨by decide, by decide⟩)
      (by decide)⟩

/-- C3 as stated fails: at status 204 the `Invalid token` body yields nil, not
an `Error` value. -/
theorem send_error_shaped_body_204 :
    (sampleClient.send (answering 204 bodyInvalidToken) sampleEnvelope).err = none ∧
    (sampleClient.send (answering 204 bodyInvalidToken) sampleEnvelope).err ≠
      some (.app ⟨"Invalid token", "OAuthException", 190, "t2"⟩) := by
  decide

/-- C7, amended: when the exchange yields a response whose status is not 204,
(1) a body that decodes to a `Response` without handles is decoded again as an
`Error` and `send` returns that value, or the error of this second decoding,
never nil; (2) for an object none of whose keys selects `validation_status` or
an `Error` field and whose `handles` members, if any, hold `[]` or `null`
(such as `{}` and `{"handles":[]}`) the returned value is the zero `Error`;
(3) for an object that starts with a non-empty `handles` list of strings and
goes on with members of any other kind but `handles` and `validation_status`
(such as `message`, `type`, `code`), `send` returns nil. -/
theorem send_ambiguous_body (c : client) (w : World) (b : BatchRequest) (resp : HttpResponse)
    (hurl : w.rejectURL c.url = none)
    (hdo : (c.executor w).Do (c.request b) = .ok resp)
    (hstatus : resp.StatusCode ≠ 204) :
    (∀ body v, resp.Body = .ok body → unmarshalResponse body = .ok v → v.Handles = [] →
      (c.send w b).err =
        match unmarshalError body with
        | .ok er => some (.app er)
        | .error err => some err) ∧
    (∀ members, resp.Body = .ok (.doc (.obj members)) →
      (∀ kv ∈ members, selectsErrorField kv.1 = false ∧
        keyMatches "validation_status" kv.1 = false ∧
        (keyMatches "handles" kv.1 = true → kv.2 = .arr [] ∨ kv.2 = .null)) →
      (c.send w b).err = some (.app ⟨"", "", 0, ""⟩)) ∧
    (∀ hs extra, hs ≠ [] →
      resp.Body = .ok (.doc (.obj (("handles", .arr (hs.map Json.str)) :: extra))) →
      (∀ kv ∈ extra, selectsResponseField kv.1 = false) →
      (c.send w b).err = none) := by
  refine ⟨?_, ?_, ?_⟩
  · intro body v hbody hdec hh
    exact send_err_of_no_handles c w b resp body v hurl hdo hstatus hbody hdec hh
  · intro members hbody hmem
    have hfold : members.foldlM responseMember StoredResponse.zero =
        .ok StoredResponse.zero := by
      clear hbody
      induction members with
      | nil => rfl
      | cons kv rest ih =>
        have hk := hmem kv (List.mem_cons_self _ _)
        have hstep : responseMember StoredResponse.zero kv = .ok StoredResponse.zero := by
          cases hkey : keyMatches "handles" kv.1 with
          | false =>
            exact responseMember_skip _ _ (by simp [selectsResponseField, hkey, hk.2.1])
          | true =>
            have hval : decodeSlice "Response.handles" "[]string"
                (decodeString "Response.handles") "" StoredResponse.zero.Handles kv.2 =
                .ok Slice.none := by
              rcases hk.2.2 hkey with h | h <;> rw [h] <;> rfl
            simp only [responseMember, hkey, if_true, hval]
            rfl
        rw [foldlM_cons_ok _ _ _ _ _ hstep]
        exact ih (fun kv' hkv' => hmem kv' (List.mem_cons_of_mem _ hkv'))
    have hresp : unmarshalResponse (.doc (.obj members)) = .ok Response.zero := by
      have hdec : decodeResponse StoredResponse.zero (.obj members) =
          .ok StoredResponse.zero := hfold
      simp only [unmarshalResponse, hdec]
      rfl
    have herr : unmarshalError (.doc (.obj members)) = .ok Error.zero :=
      foldlM_errorMember_skip "Error." members Error.zero (fun kv hkv => (hmem kv hkv).1)
    rw [send_err_of_no_handles c w b resp _ _ hurl hdo hstatus hbody hresp rfl, herr]
    rfl
  · intro hs extra hne hbody hextra
    obtain ⟨h, rest, rfl⟩ := List.exists_cons_of_ne_nil hne
    have hk : keyMatches "handles" "handles" = true := by decide
    have hval : decodeSlice "Response.handles" "[]string" (decodeString "Response.handles") ""
        StoredResponse.zero.Handles (.arr ((h :: rest).map Json.str)) =
        .ok ⟨h :: rest, []⟩ := by
      have hitems := decodeItems_strings "Response.handles" (h :: rest) []
      rw [List.map_cons] at hitems ⊢
      simp only [decodeSlice, StoredResponse.zero, Slice.none, List.append_nil, hitems]
      rfl
    have hstep : responseMember StoredResponse.zero
        ("handles", .arr ((h :: rest).map Json.str)) =
        .ok ⟨⟨h :: rest, []⟩, Slice.none⟩ := by
      simp only [responseMember, hk, if_true, hval]
      rfl
    have hdec : decodeResponse StoredResponse.zero
        (.obj (("handles", .arr ((h :: rest).map Json.str)) :: extra)) =
        .ok ⟨⟨h :: rest, []⟩, Slice.none⟩ := by
      show List.foldlM responseMember StoredResponse.zero _ = _
      rw [foldlM_cons_ok _ _ _ _ _ hstep]
      exact foldlM_responseMember_skip extra _ hextra
    have hresp : unmarshalResponse
        (.doc (.obj (("handles", .arr ((h :: rest).map Json.str)) :: extra))) =
        .ok ⟨h :: rest, []⟩ := by
      simp only [unmarshalResponse, hdec]
      rfl
    rw [send_err_of_handles c w b resp _ _ hurl hdo hstatus hbody hresp hne]
    rfl

/-- Witness of C7, amended: the body `{"handles":[]}` yields the zero `Error`,
and the body with handle `h1` next to `message`, `type` and `code` yields nil. -/
theorem send_ambiguous_body_witness :
    (sampleClient.send (answering 200 bodyEmptyHandles) sampleEnvelope).err =
      some (.app ⟨"", "", 0, ""⟩) ∧
    (sampleClient.send (answering 200 bodyBothShapes) sampleEnvelope).err = none :=
  ⟨(send_ambiguous_body sampleClient (answering 200 bodyEmptyHandles) sampleEnvelope
      ⟨200, .ok (.doc bodyEmptyHandles)⟩ rfl rfl (by decide)).2.1 [("handles", .arr [])] rfl
      (by
        intro kv hkv
        rw [List.mem_singleton] at hkv
        subst hkv
        exact ⟨by decide, by decide, fun _ => Or.inl rfl⟩),
   (send_ambiguous_body sampleClient (answering 200 bodyBothShapes) sampleEnvelope
      ⟨200, .ok (.doc bodyBothShapes)⟩ rfl rfl (by decide)).2.2 ["h1"]
      [("message", .str "Invalid token"), ("type", .str "OAuthException"), ("code", .num 190)]
      (by decide) rfl
      (by
        intro kv hkv
        simp only [List.mem_cons, List.mem_singleton, List.not_mem_nil, or_false] at hkv
        rcases hkv with rfl | rfl | rfl <;> rfl)⟩

/-- C7 as stated fails: for the bodies `{}` and `{"handles":[]}` at status 200
`send` returns an `Error` value with zero fields, and for a body with a handle
next to `message`, `type` and `code` it returns nil; none of the three is a
decoding error. -/
theorem send_ambiguous_body_not_decoding_error :
    (sampleClient.send (answering 200 bodyEmptyObject) sampleEnvelope).err =
      some (.app ⟨"", "", 0, ""⟩) ∧
    (sampleClient.send (answering 200 bodyEmptyHandles) sampleEnvelope).err =
      some (.app ⟨"", "", 0, ""⟩) ∧
    (sampleClient.send (answering 200 bodyBothShapes) sampleEnvelope).err = none := by
  decide

end Catalog
